import Mathlib

/-!
Shallow embedding of the editor core of `src/main.rs`: the `EditHistory`
undo log, the `Editor` state, and the `update` message handler.  GUI
widgets, fonts and the async file-dialog plumbing are out of scope; the
completion of an async load/save re-enters `update` as an ordinary
message, which is how we model it (`FileOpened` / `FileSaved` carrying a
`Result`).
-/

/-- Platform-independent IO error category, as in the spec's taxonomy for
`io::ErrorKind` (not-found / permission-denied / other). -/
inductive IOErrorKind
  | notFound
  | permissionDenied
  | other
deriving Repr, DecidableEq

/-- Mirrors `enum Error { DialogClosed, IOFailed(io::ErrorKind) }`. -/
inductive Error
  | DialogClosed
  | IOFailed (kind : IOErrorKind)
deriving Repr, DecidableEq

/-- Mirrors `iced::highlighter::Theme` (only its identity matters to the
state machine; `ThemeSelected` stores it unchanged). -/
inductive HTheme
  | SolarizedDark
  | Base16Eighties
  | Base16Mocha
  | Base16Ocean
  | InspiredGitHub
deriving Repr, DecidableEq

/-- Mirrors `struct EditHistory { history: Vec<String>, current_index: usize }`. -/
structure EditHistory where
  history : List String
  current_index : Nat
deriving Repr, DecidableEq

/-- `EditHistory::new(initial_text)`: one baseline snapshot at index 0. -/
def EditHistory.new (initial_text : String) : EditHistory :=
  { history := [initial_text], current_index := 0 }

/-- `EditHistory::add_edit`: truncate the redo branch if the index is not
at the tail (`history.truncate(current_index + 1)`), then push `text` and
increment `current_index`. -/
def EditHistory.add_edit (h : EditHistory) (text : String) : EditHistory :=
  let truncated :=
    if h.current_index < h.history.length - 1 then
      h.history.take (h.current_index + 1)
    else
      h.history
  { history := truncated ++ [text], current_index := h.current_index + 1 }

/-- `EditHistory::undo`: if `current_index > 0`, decrement it and return
the snapshot now at that index; otherwise return `none` and leave the
history untouched.  The returned pair is (return value, updated self). -/
def EditHistory.undo (h : EditHistory) : Option String × EditHistory :=
  if 0 < h.current_index then
    (h.history[h.current_index - 1]?,
      { h with current_index := h.current_index - 1 })
  else
    (none, h)

/-- `EditHistory::is_clean`: `current_index == 0`. -/
def EditHistory.is_clean (h : EditHistory) : Bool :=
  h.current_index == 0

/-- Well-formedness of a history, spec invariant (1): the index stays
inside `[0, len-1]`.  Every history reachable through `new`, `add_edit`
and `undo` satisfies it. -/
def EditHistory.wf (h : EditHistory) : Prop :=
  h.current_index < h.history.length

instance (h : EditHistory) : Decidable h.wf := by
  unfold EditHistory.wf; infer_instance

/-- Observables of an `iced::widget::text_editor::Action`: whether it is a
mutating edit (`Action::is_edit`) and its effect on the buffer text
(`Content::edit` followed by `Content::text`). -/
structure EditAction where
  is_edit : Bool
  apply : String → String

/-- Mirrors `enum Message`.  `FileOpened` carries
`Result<(PathBuf, Arc<String>), Error>` and `FileSaved` carries
`Result<PathBuf, Error>`; paths are modelled as strings. -/
inductive Message
  | Edit (action : EditAction)
  | New
  | Open
  | FileOpened (result : Except Error (String × String))
  | Save
  | FileSaved (result : Except Error String)
  | ThemeSelected (theme : HTheme)
  | BlockEdit
  | UnblockEdit
  | Undo

/-- Mirrors `struct Editor`; `content` is the text of the
`text_editor::Content` buffer. -/
structure Editor where
  path : Option String
  content : String
  error : Option Error
  theme : HTheme
  is_dirty : Bool
  block_edit : Bool
  edit_history : EditHistory
deriving Repr, DecidableEq

/-- `Editor::new`: the initial state (the async load of the default file
that is issued alongside it re-enters as a later `FileOpened` message). -/
def Editor.new : Editor :=
  { path := none
    content := ""
    error := none
    theme := HTheme.Base16Mocha
    is_dirty := true
    block_edit := false
    edit_history := EditHistory.new "" }

/-- `Editor::update`: the message handler, state transition only (the
`Command` side effects it returns are external I/O and not modelled). -/
def Editor.update (s : Editor) (m : Message) : Editor :=
  match m with
  | Message.Edit action =>
      if s.block_edit then s
      else
        let newContent := action.apply s.content
        { s with
          is_dirty := s.is_dirty || action.is_edit
          error := none
          content := newContent
          edit_history := s.edit_history.add_edit newContent }
  | Message.BlockEdit => { s with block_edit := true }
  | Message.UnblockEdit => { s with block_edit := false }
  | Message.New => { s with path := none, content := "", is_dirty := true }
  | Message.Open => s
  | Message.FileOpened (Except.ok (p, c)) =>
      { s with
        path := some p
        content := c
        edit_history := EditHistory.new c
        is_dirty := false }
  | Message.FileOpened (Except.error e) => { s with error := some e }
  | Message.Save => { s with edit_history := EditHistory.new s.content }
  | Message.FileSaved (Except.ok p) =>
      { s with path := some p, is_dirty := false }
  | Message.FileSaved (Except.error e) => { s with error := some e }
  | Message.ThemeSelected t => { s with theme := t }
  | Message.Undo =>
      if s.is_dirty then
        match s.edit_history.undo with
        | (some undo_text, h) =>
            { s with
              content := undo_text
              edit_history := h
              is_dirty := if h.is_clean then false else s.is_dirty }
        | (none, h) => { s with edit_history := h }
      else s

/-- Process a sequence of messages in arrival order. -/
def Editor.run (s : Editor) (ms : List Message) : Editor :=
  ms.foldl Editor.update s

/-- C1: while the input gate is suspended (`block_edit` true), an `Edit`
message leaves the whole editor state unchanged: content, history, dirty
flag, path and error state included. -/
theorem C1_blocked_edit_is_noop (s : Editor) (a : EditAction)
    (hb : s.block_edit = true) :
    s.update (Message.Edit a) = s := by
  simp [Editor.update, hb]

/-- C1 witness: a concrete gated state is untouched by a concrete edit. -/
theorem C1_blocked_edit_is_noop_witness :
    ({ path := none, content := "hi", error := none,
       theme := HTheme.Base16Mocha, is_dirty := true, block_edit := true,
       edit_history := { history := ["", "hi"], current_index := 1 } } :
      Editor).update (Message.Edit { is_edit := true, apply := fun t => t ++ "x" }) =
    { path := none, content := "hi", error := none,
      theme := HTheme.Base16Mocha, is_dirty := true, block_edit := true,
      edit_history := { history := ["", "hi"], current_index := 1 } } :=
  C1_blocked_edit_is_noop _ _ rfl

/-- C3: `add_edit` discards everything after `current_index` (when the
index is not at the tail), appends the new snapshot, and sets the index to
the new last position; written uniformly, the new history is
`take (current_index + 1) ++ [text]`.  Includes the spec scenario:
[A,B,C] at index 2, after undo and `record("D")`, is [A,B,D] at index 2. -/
theorem C3_add_edit_truncates_and_appends (h : EditHistory) (text : String)
    (hwf : h.wf) :
    (h.add_edit text).history = h.history.take (h.current_index + 1) ++ [text] ∧
    (h.add_edit text).current_index = h.current_index + 1 ∧
    (h.add_edit text).current_index + 1 = (h.add_edit text).history.length ∧
    (({ history := ["A", "B", "C"], current_index := 2 } :
        EditHistory).undo.2.add_edit "D" =
      { history := ["A", "B", "D"], current_index := 2 }) := by
  unfold EditHistory.wf at hwf
  refine ⟨?_, rfl, ?_, by decide⟩
  · unfold EditHistory.add_edit
    by_cases hlt : h.current_index < h.history.length - 1
    · simp [hlt]
    · have hge : h.history.length ≤ h.current_index + 1 := by omega
      simp [hlt, List.take_of_length_le hge]
  · unfold EditHistory.add_edit
    by_cases hlt : h.current_index < h.history.length - 1
    · simp [hlt]
      omega
    · simp [hlt]
      omega

/-- C3 witness: `add_edit` on a concrete mid-history state. -/
theorem C3_add_edit_truncates_and_appends_witness :
    (({ history := ["A", "B", "C"], current_index := 1 } :
        EditHistory).add_edit "D").history =
      (["A", "B", "C"].take 2) ++ ["D"] ∧
    (({ history := ["A", "B", "C"], current_index := 1 } :
        EditHistory).add_edit "D").current_index = 2 :=
  ⟨(C3_add_edit_truncates_and_appends _ "D" (by decide)).1,
    (C3_add_edit_truncates_and_appends _ "D" (by decide)).2.1⟩

/-- Iterated `undo`, keeping only the updated history (the state part of
the returned pair), to express "calling undo repeatedly". -/
def EditHistory.undoN (h : EditHistory) : Nat → EditHistory
  | 0 => h
  | n + 1 => (h.undo.2).undoN n

theorem undoN_state (h : EditHistory) (n : Nat) :
    (h.undoN n).history = h.history ∧
    (h.undoN n).current_index = h.current_index - n := by
  induction n generalizing h with
  | zero => simp [EditHistory.undoN]
  | succ n ih =>
      have := ih h.undo.2
      unfold EditHistory.undo at this
      by_cases hpos : 0 < h.current_index
      · simp [hpos] at this
        unfold EditHistory.undoN EditHistory.undo
        simp [hpos]
        refine ⟨this.1, ?_⟩
        rw [this.2]
        omega
      · simp [hpos] at this
        unfold EditHistory.undoN EditHistory.undo
        simp [hpos]
        refine ⟨this.1, ?_⟩
        rw [this.2]
        omega

/-- C4: `undo` with a positive index decrements the index and returns the
snapshot now at that index, never mutating the snapshot list; at index 0
it returns `none` and leaves the history unchanged.  Consequently the
returned snapshot is an existing entry strictly before the old index, and
after `current_index` repeated undos a further `undo` returns `none`. -/
theorem C4_undo_behaviour (h : EditHistory) (hwf : h.wf) :
    (0 < h.current_index →
      ∃ t, h.history[h.current_index - 1]? = some t ∧
        h.undo = (some t,
          { history := h.history, current_index := h.current_index - 1 })) ∧
    (h.current_index = 0 → h.undo = (none, h)) ∧
    (h.undoN h.current_index).undo = (none, h.undoN h.current_index) := by
  unfold EditHistory.wf at hwf
  refine ⟨?_, ?_, ?_⟩
  · intro hpos
    have hidx : h.current_index - 1 < h.history.length := by omega
    refine ⟨h.history[h.current_index - 1], ?_, ?_⟩
    · exact List.getElem?_eq_getElem hidx
    · unfold EditHistory.undo
      simp [hpos, List.getElem?_eq_getElem hidx]
  · intro hzero
    unfold EditHistory.undo
    simp [hzero]
  · have hst := undoN_state h h.current_index
    unfold EditHistory.undo
    have : (h.undoN h.current_index).current_index = 0 := by
      rw [hst.2]; omega
    simp [this]

/-- C4 witness: undo on [A,B] at index 1 returns the snapshot now at
index 0, namely A; after one iterated undo a further undo yields `none`. -/
theorem C4_undo_behaviour_witness :
    (({ history := ["A", "B"], current_index := 1 } : EditHistory).undo =
      (some "A", { history := ["A", "B"], current_index := 0 })) ∧
    (({ history := ["A", "B"], current_index := 1 } :
        EditHistory).undoN 1).undo =
      (none, { history := ["A", "B"], current_index := 0 }) := by
  have h1 := (C4_undo_behaviour
    { history := ["A", "B"], current_index := 1 } (by decide)).1 (by decide)
  have h3 := (C4_undo_behaviour
    { history := ["A", "B"], current_index := 1 } (by decide)).2.2
  obtain ⟨t, ht, hu⟩ := h1
  refine ⟨?_, ?_⟩
  · have : t = "A" := by
      simp at ht
      exact ht.symm
    rw [hu, this]
    rfl
  · have : (({ history := ["A", "B"], current_index := 1 } :
        EditHistory).undoN 1) =
        { history := ["A", "B"], current_index := 0 } := by decide
    rw [this] at h3
    exact h3

/-- C5: a successful `FileOpened` sets the path, replaces the content,
resets the history to a single baseline equal to the loaded content at
index 0, and clears the dirty flag — regardless of the prior state (all
other fields are untouched). -/
theorem C5_file_opened_ok (s : Editor) (p c : String) :
    s.update (Message.FileOpened (Except.ok (p, c))) =
      { s with
        path := some p
        content := c
        edit_history := { history := [c], current_index := 0 }
        is_dirty := false } := by
  rfl

/-- Shared step lemma: processing `Undo` in a dirty state with a positive
history index decrements the index, restores the snapshot now at that
index into the content, and clears the dirty flag exactly when the new
index is 0. -/
theorem undo_step_dirty (s : Editor) (hwf : s.edit_history.wf)
    (hd : s.is_dirty = true) (hpos : 0 < s.edit_history.current_index) :
    s.update Message.Undo =
      { s with
        content := s.edit_history.history.getD
          (s.edit_history.current_index - 1) ""
        edit_history := { history := s.edit_history.history,
                          current_index := s.edit_history.current_index - 1 }
        is_dirty :=
          if s.edit_history.current_index - 1 = 0 then false else true } := by
  unfold EditHistory.wf at hwf
  have hidx : s.edit_history.current_index - 1 < s.edit_history.history.length := by
    omega
  unfold Editor.update
  rw [hd]
  unfold EditHistory.undo
  simp [hpos, List.getElem?_eq_getElem hidx, EditHistory.is_clean,
    List.getD_eq_getElem?_getD, hd]

/-- C6: `Undo` with the dirty flag set pops one snapshot: if one is
returned (index was positive) the content is replaced with it and the
dirty flag is cleared exactly when the history becomes clean; at index 0
nothing changes; and with the dirty flag clear, `Undo` is a no-op even if
the history still has entries beyond the baseline. -/
theorem C6_undo_message (s : Editor) (hwf : s.edit_history.wf) :
    (s.is_dirty = true → 0 < s.edit_history.current_index →
      s.update Message.Undo =
        { s with
          content := s.edit_history.history.getD
            (s.edit_history.current_index - 1) ""
          edit_history := { history := s.edit_history.history,
                            current_index := s.edit_history.current_index - 1 }
          is_dirty :=
            if s.edit_history.current_index - 1 = 0 then false else true }) ∧
    (s.is_dirty = true → s.edit_history.current_index = 0 →
      s.update Message.Undo = s) ∧
    (s.is_dirty = false → s.update Message.Undo = s) := by
  refine ⟨fun hd hpos => undo_step_dirty s hwf hd hpos, ?_, ?_⟩
  · intro hd hzero
    cases s with
    | mk p c er th d b eh =>
        simp only at hd hzero
        unfold Editor.update EditHistory.undo
        simp [hd, hzero]
  · intro hd
    unfold Editor.update
    simp [hd]

/-- C6 witness: a concrete dirty state with history ["", "a", "ab"] at
index 2 undoes to content "a" and stays dirty; the same state with the
dirty flag cleared is untouched by `Undo`. -/
theorem C6_undo_message_witness :
    ({ path := none, content := "ab", error := none,
       theme := HTheme.Base16Mocha, is_dirty := true, block_edit := false,
       edit_history := { history := ["", "a", "ab"], current_index := 2 } } :
        Editor).update Message.Undo =
      { path := none, content := "a", error := none,
        theme := HTheme.Base16Mocha, is_dirty := true, block_edit := false,
        edit_history := { history := ["", "a", "ab"], current_index := 1 } } ∧
    ({ path := none, content := "ab", error := none,
       theme := HTheme.Base16Mocha, is_dirty := false, block_edit := false,
       edit_history := { history := ["", "a", "ab"], current_index := 2 } } :
        Editor).update Message.Undo =
      { path := none, content := "ab", error := none,
        theme := HTheme.Base16Mocha, is_dirty := false, block_edit := false,
        edit_history := { history := ["", "a", "ab"], current_index := 2 } } := by
  constructor
  · exact (C6_undo_message _ (by decide)).1 rfl (by decide)
  · exact (C6_undo_message _ (by decide)).2.2 rfl

/-- C7 counterexample: `New` does not establish a fresh EditHistory.
After one edit the history has two snapshots; processing `New` leaves
that history in place (length still 2, not a fresh single-snapshot
baseline). -/
theorem C7_new_keeps_history_counterexample :
    ((Editor.new.update
        (Message.Edit { is_edit := true, apply := fun _ => "x" })).update
        Message.New).edit_history =
      { history := ["", "x"], current_index := 1 } ∧
    ((Editor.new.update
        (Message.Edit { is_edit := true, apply := fun _ => "x" })).update
        Message.New).edit_history.history.length = 2 := by
  constructor <;> rfl

/-- C7 amended: `New` clears the path, resets the content to empty, and
sets the dirty flag — and leaves everything else, the EditHistory
included, unchanged (no fresh history is established). -/
theorem C7_new_message (s : Editor) :
    s.update Message.New = { s with path := none, content := "", is_dirty := true } := by
  rfl

/-- C8: a failed load or a failed save stores the error in the error
field and changes nothing else: content, path, history and dirty flag are
all as before (for saves, the baseline reset already performed at `Save`
time stays in place). -/
theorem C8_error_results (s : Editor) (e : Error) :
    s.update (Message.FileOpened (Except.error e)) = { s with error := some e } ∧
    s.update (Message.FileSaved (Except.error e)) = { s with error := some e } := by
  constructor <;> rfl

/-- The view layer enables the Save action exactly when the dirty flag is
set (`self.is_dirty.then_some(Message::Save)`). -/
def save_action_enabled (s : Editor) : Bool :=
  s.is_dirty

/-- C9: the initial state has no path, empty content, no error, a set
dirty flag (so Save is enabled at startup), a released gate, and a
single empty-string baseline history at index 0. -/
theorem C9_initial_state :
    Editor.new.path = none ∧
    Editor.new.content = "" ∧
    Editor.new.error = none ∧
    Editor.new.is_dirty = true ∧
    save_action_enabled Editor.new = true ∧
    Editor.new.block_edit = false ∧
    Editor.new.edit_history = { history := [""], current_index := 0 } := by
  decide

/-- C10: the gate suspends only `Edit` messages.  With `block_edit` set,
the dirty flag set and a non-clean history, `Undo` still pops a snapshot
(index decremented, content replaced) and behaves exactly as it would
with the gate released. -/
theorem C10_gate_does_not_block_undo (s : Editor) (hb : s.block_edit = true)
    (hd : s.is_dirty = true) (hc : s.edit_history.is_clean = false)
    (hwf : s.edit_history.wf) :
    s.update Message.Undo =
      { ({ s with block_edit := false } : Editor).update Message.Undo with
        block_edit := true } ∧
    (s.update Message.Undo).edit_history.current_index =
      s.edit_history.current_index - 1 ∧
    (s.update Message.Undo).content =
      s.edit_history.history.getD (s.edit_history.current_index - 1) "" := by
  have hpos : 0 < s.edit_history.current_index := by
    unfold EditHistory.is_clean at hc
    simp at hc
    omega
  have h1 := undo_step_dirty s hwf hd hpos
  have h2 := undo_step_dirty { s with block_edit := false } hwf hd hpos
  refine ⟨?_, ?_, ?_⟩
  · rw [h1, h2]
    simp [hb]
  · rw [h1]
  · rw [h1]

/-- C10 witness: a concrete gated, dirty, non-clean state still undoes. -/
theorem C10_gate_does_not_block_undo_witness :
    ({ path := none, content := "x", error := none,
       theme := HTheme.Base16Mocha, is_dirty := true, block_edit := true,
       edit_history := { history := ["", "x"], current_index := 1 } } :
        Editor).update Message.Undo =
      { ({ path := none, content := "x", error := none,
           theme := HTheme.Base16Mocha, is_dirty := true, block_edit := false,
           edit_history := { history := ["", "x"], current_index := 1 } } :
            Editor).update Message.Undo with block_edit := true } :=
  (C10_gate_does_not_block_undo _ rfl rfl (by decide) (by decide)).1

/-- The dirty-flag / history invariant of the spec: a clear dirty flag
means the history index sits at the baseline. -/
def dirty_inv (s : Editor) : Prop :=
  s.is_dirty = false → s.edit_history.current_index = 0

/-- Messages that preserve `dirty_inv`.  The two exceptions in the code:
a successful save completion clears the dirty flag without touching the
history index, and an `Edit` whose action is not a mutating edit records
a history snapshot without setting the dirty flag. -/
def Message.keeps_dirty_inv : Message → Bool
  | Message.FileSaved (Except.ok _) => false
  | Message.Edit a => a.is_edit
  | _ => true

theorem dirty_inv_step (s : Editor) (m : Message)
    (hs : dirty_inv s) (hm : m.keeps_dirty_inv = true) :
    dirty_inv (s.update m) := by
  unfold dirty_inv at *
  cases m with
  | Edit a =>
      simp only [Message.keeps_dirty_inv] at hm
      unfold Editor.update
      by_cases hb : s.block_edit = true
      · simpa [hb] using hs
      · simp [hb, hm]
  | New => intro hfalse; simp [Editor.update] at hfalse
  | Open => exact hs
  | FileOpened r =>
      match r with
      | Except.ok (p, c) => intro _; rfl
      | Except.error e => exact hs
  | Save => intro _; rfl
  | FileSaved r =>
      match r with
      | Except.ok p => simp [Message.keeps_dirty_inv] at hm
      | Except.error e => exact hs
  | ThemeSelected t => exact hs
  | BlockEdit => exact hs
  | UnblockEdit => exact hs
  | Undo =>
      unfold Editor.update
      by_cases hd : s.is_dirty = true
      · simp only [hd, if_true]
        rcases hu : s.edit_history.undo with ⟨o, h⟩
        cases o with
        | some t =>
            by_cases hcl : h.is_clean = true
            · simp [hcl]
              simpa [EditHistory.is_clean] using hcl
            · simp only [Bool.not_eq_true] at hcl
              simp [hcl, hd]
        | none =>
            intro hfalse
            simp [hd] at hfalse
      · simp only [Bool.not_eq_true] at hd
        simpa [hd] using hs

theorem dirty_inv_run (ms : List Message) (s : Editor) (hs : dirty_inv s)
    (hms : ms.all Message.keeps_dirty_inv = true) : dirty_inv (s.run ms) := by
  induction ms generalizing s with
  | nil => exact hs
  | cons m rest ih =>
      simp only [List.all_cons, Bool.and_eq_true] at hms
      exact ih (s.update m) (dirty_inv_step s m hs hms.1) hms.2

/-- C2 counterexample: the claimed invariant "dirty flag clear implies
history index 0" fails on reachable states.  First trace: a `Save`, an
edit while the save is in flight, then the save completion — the
completion clears the dirty flag but leaves the index at 1.  Second
trace: a non-mutating edit action in a clean state records a snapshot
(index 1) without setting the dirty flag. -/
theorem C2_dirty_invariant_counterexample :
    ((Editor.new.run [Message.Save,
        Message.Edit { is_edit := true, apply := fun _ => "x" },
        Message.FileSaved (Except.ok "a.txt")]).is_dirty = false ∧
      (Editor.new.run [Message.Save,
        Message.Edit { is_edit := true, apply := fun _ => "x" },
        Message.FileSaved (Except.ok "a.txt")]).edit_history.current_index = 1) ∧
    ((Editor.new.run [Message.FileOpened (Except.ok ("b.txt", "abc")),
        Message.Edit { is_edit := false, apply := fun t => t }]).is_dirty = false ∧
      (Editor.new.run [Message.FileOpened (Except.ok ("b.txt", "abc")),
        Message.Edit { is_edit := false, apply := fun t => t }]).edit_history.current_index = 1) :=
  ⟨⟨rfl, rfl⟩, ⟨rfl, rfl⟩⟩

/-- C2 amended: in every state reachable from the initial state by a
message sequence containing no successful save completion and no `Edit`
carrying a non-mutating action, a clear dirty flag implies history index
0.  (The two excluded message kinds are exactly the ones the
counterexample shows break the invariant.) -/
theorem C2_amended_dirty_invariant (ms : List Message)
    (hms : ms.all Message.keeps_dirty_inv = true) :
    (Editor.new.run ms).is_dirty = false →
    (Editor.new.run ms).edit_history.current_index = 0 := by
  have hinit : dirty_inv Editor.new := by
    intro hfalse
    simp [Editor.new] at hfalse
  exact dirty_inv_run ms Editor.new hinit hms

/-- C2 witness: load a file, make one mutating edit, undo it — the state
is clean again and the invariant instance produced by the amended theorem
evaluates to index 0. -/
theorem C2_amended_dirty_invariant_witness :
    (Editor.new.run [Message.FileOpened (Except.ok ("a.txt", "abc")),
      Message.Edit { is_edit := true, apply := fun t => t ++ "x" },
      Message.Undo]).edit_history.current_index = 0 :=
  C2_amended_dirty_invariant
    [Message.FileOpened (Except.ok ("a.txt", "abc")),
      Message.Edit { is_edit := true, apply := fun t => t ++ "x" },
      Message.Undo] rfl rfl
